import Mathlib

/-!
Verification development for the movie-conversion job-processing engine.

Shallow embedding of the core modules:
* `db_utils.py`    — `DatabaseManager` over the `jobs` and `encoding_profiles` tables
* `encoding_utils.py` — `FFmpegCommandBuilder`, `IntelQSVStrategy`, `execute_process`
* `conversion_utils.py` — `ProcessingPipeline` (tier selection, encode loop, relocation)
* `file_utils.py`  — `should_process_path`
* `core.py`        — the worker-loop body around dequeue and the seeding-path safeguard

The SQLite tables are modelled as Lean lists of records; `CURRENT_TIMESTAMP`
values are abstract naturals supplied by the caller.  External process
execution and the filesystem are modelled by explicit outcome oracles that the
embedded code inspects exactly where the Python code inspects them.
-/

/-- Embeds `models.JobStatus` (models.py, lines 93-98). -/
inductive JobStatus where
  | pending
  | processing
  | completed
  | failed
  | rejected
deriving DecidableEq, Repr

/-- A row of the `jobs` table (db_utils.py, lines 26-34): integer primary key,
unique path, status, creation timestamp.  `updated_at` plays no role in any
claim and is omitted. -/
structure Job where
  id : Nat
  path : String
  status : JobStatus
  created_at : Nat
deriving DecidableEq, Repr

/-- A row of the `encoding_profiles` table (db_utils.py, lines 39-53):
keyed by the media signature (width, height, codec, pix_fmt), carrying the
best-known parameters and a success counter (`DEFAULT 1` on insert). -/
structure Profile where
  width : Int
  height : Int
  codec : String
  pix_fmt : String
  best_bf : Int
  best_lad : Int
  best_async_depth : Int
  success_count : Nat
deriving DecidableEq, Repr

/-- Embeds `db_utils.DatabaseManager` state: the two tables plus the AUTOINCREMENT
counter for `jobs.id`. -/
structure DatabaseManager where
  jobs : List Job
  next_id : Nat
  profiles : List Profile
deriving DecidableEq, Repr

/-- Embeds `DatabaseManager.add_job` (db_utils.py, lines 68-81): insert a PENDING row
for `path`; the UNIQUE constraint on `path` makes the insert fail (returning
`false`, queue unchanged) when the path is already present.  `now` stands for
`CURRENT_TIMESTAMP`. -/
def DatabaseManager.add_job (db : DatabaseManager) (path : String) (now : Nat) :
    Bool × DatabaseManager :=
  if db.jobs.any (fun j => j.path = path) then
    (false, db)
  else
    (true, { db with
              jobs := db.jobs ++ [{ id := db.next_id, path := path,
                                    status := .pending, created_at := now }],
              next_id := db.next_id + 1 })

/-- The row scan behind `dequeue_pending_job`'s
`SELECT id, path FROM jobs WHERE status = 'PENDING' ORDER BY created_at ASC LIMIT 1`
(db_utils.py, lines 92-97): scan rows in primary-key order keeping the current
best, replacing it only on a strictly smaller `created_at` — so the first row
(lowest id) among those with minimal `created_at` wins. -/
def minPendingScan : Option Job → List Job → Option Job
  | best, [] => best
  | best, j :: rest =>
    if j.status = .pending then
      match best with
      | none => minPendingScan (some j) rest
      | some b =>
        if j.created_at < b.created_at then minPendingScan (some j) rest
        else minPendingScan (some b) rest
    else minPendingScan best rest

/-- Embeds `DatabaseManager.dequeue_pending_job` (db_utils.py, lines 83-108):
atomically select the oldest PENDING job, mark it PROCESSING and return
`(id, path)`; return `none` leaving the table unchanged when no PENDING job
exists. -/
def DatabaseManager.dequeue_pending_job (db : DatabaseManager) :
    Option (Nat × String) × DatabaseManager :=
  match minPendingScan none db.jobs with
  | none => (none, db)
  | some j =>
    let jobs := db.jobs.map fun k =>
      if k.id = j.id then { k with status := .processing } else k
    (some (j.id, j.path), { db with jobs := jobs })

/-- Embeds `DatabaseManager.update_job_status` (db_utils.py, lines 110-118):
unconditional status overwrite for the row with the given id. -/
def DatabaseManager.update_job_status (db : DatabaseManager) (job_id : Nat)
    (status : JobStatus) : DatabaseManager :=
  let jobs := db.jobs.map fun k =>
    if k.id = job_id then { k with status := status } else k
  { db with jobs := jobs }

/-- Modelled from the spec: `DatabaseManager.reset_orphaned_jobs` is invoked at
worker startup (core.py, line 30) but its definition is not among the source
files.  Per the spec's recovery contract, "on process start, any job left in
PROCESSING (from a prior crash mid-job) must be reset to PENDING". -/
def DatabaseManager.reset_orphaned_jobs (db : DatabaseManager) : DatabaseManager :=
  let jobs := db.jobs.map fun j =>
    if j.status = .processing then { j with status := .pending } else j
  { db with jobs := jobs }

/-- Signature match used by both heuristics queries (db_utils.py, lines
129-133 and 155-166): equality on (width, height, codec, pix_fmt). -/
def sigMatches (p : Profile) (w h : Int) (codec pix_fmt : String) : Bool :=
  p.width = w ∧ p.height = h ∧ p.codec = codec ∧ p.pix_fmt = pix_fmt

/-- Embeds `DatabaseManager.get_best_profile` (db_utils.py, lines 122-145): lookup of
`(best_bf, best_lad, best_async_depth)` for the signature.  The `last_used`
touch is a timestamp-only side effect and is not modelled. -/
def DatabaseManager.get_best_profile (db : DatabaseManager) (w h : Int)
    (codec pix_fmt : String) : Option (Int × Int × Int) :=
  match db.profiles.find? (fun p => sigMatches p w h codec pix_fmt) with
  | some p => some (p.best_bf, p.best_lad, p.best_async_depth)
  | none => none

/-- The `DO UPDATE SET` row transformation of `save_successful_profile`
(db_utils.py, lines 159-165): on the conflicting row, overwrite the three
parameter values and increment `success_count`. -/
def updateProfileRow (w h : Int) (c f : String) (bf lad ad : Int) (p : Profile) :
    Profile :=
  if sigMatches p w h c f then
    { p with best_bf := bf, best_lad := lad, best_async_depth := ad,
             success_count := p.success_count + 1 }
  else p

/-- The freshly inserted row of `save_successful_profile` (db_utils.py, lines
155-158), with `success_count` at its SQL default of 1. -/
def newProfileRow (w h : Int) (c f : String) (bf lad ad : Int) : Profile :=
  { width := w, height := h, codec := c, pix_fmt := f,
    best_bf := bf, best_lad := lad, best_async_depth := ad, success_count := 1 }

/-- Embeds `DatabaseManager.save_successful_profile` (db_utils.py, lines 147-167):
`INSERT ... ON CONFLICT(width, height, codec, pix_fmt) DO UPDATE` — create the
row if the signature is absent, else overwrite the three parameter values and
increment `success_count`. -/
def DatabaseManager.save_successful_profile (db : DatabaseManager) (w h : Int)
    (codec pix_fmt : String) (bf lad async_depth : Int) : DatabaseManager :=
  if db.profiles.any (fun p => sigMatches p w h codec pix_fmt) then
    { db with profiles :=
        db.profiles.map (updateProfileRow w h codec pix_fmt bf lad async_depth) }
  else
    { db with profiles :=
        db.profiles ++ [newProfileRow w h codec pix_fmt bf lad async_depth] }

/-- The stored success counter for a signature, reading an absent row as 0. -/
def successCountOf (db : DatabaseManager) (w h : Int) (codec pix_fmt : String) : Nat :=
  match db.profiles.find? (fun p => sigMatches p w h codec pix_fmt) with
  | some p => p.success_count
  | none => 0

/-- The configuration fields the core reads (config.py): tool path, QSV device,
default quality, library roots. -/
structure AppConfig where
  ffmpeg_path : String
  qsv_device : String
  global_quality_default : Int
  base_movies_root : String
  base_tvseries_root : String
deriving DecidableEq, Repr

/-- Python `str.startswith`, modelled character-wise (the library
`String.startsWith` is byte-position based and does not reduce in the
kernel). -/
def strStartsWith (s pre : String) : Bool := pre.data.isPrefixOf s.data

/-- Python `str.strip`: drop whitespace from both ends. -/
def strTrim (s : String) : String :=
  ⟨((s.data.dropWhile Char.isWhitespace).reverse.dropWhile Char.isWhitespace).reverse⟩

/-- Embeds `file_utils.should_process_path` (file_utils.py, lines 43-66): strip the
path, reject anything under `/share/seeding`, accept paths under the TV-series
or movies roots, reject the rest. -/
def should_process_path (linux_path : String) (config : AppConfig) : Bool :=
  let path_str := strTrim linux_path
  if strStartsWith path_str "/share/seeding" then false
  else if strStartsWith path_str config.base_tvseries_root then true
  else if strStartsWith path_str config.base_movies_root then true
  else false

/-- Embeds `models.VideoStreamInfo` (models.py, lines 26-32). -/
structure VideoStreamInfo where
  width : Int
  height : Int
  codec_name : String
  profile : String
  pix_fmt : String
deriving DecidableEq, Repr

/-- The slice of `models.MediaItem` the encoding path reads: source path,
probed stream info (absent when probing was skipped or failed), the sanitized
name, and the mapped audio track indices. -/
structure MediaItem where
  source_path : String
  stream_info : Option VideoStreamInfo
  clean_name : String
  audio_tracks : List Nat
deriving DecidableEq, Repr

/-- Embeds `encoding_utils.FFmpegCommandBuilder` state (encoding_utils.py, lines
16-27). -/
structure FFmpegCommandBuilder where
  cmd : List String
  inputs : List String
  filters : List String
  maps : List String
  video_opts : List String
  audio_opts : List String
  global_opts : List String
  output : String
deriving DecidableEq, Repr

/-- Embeds `FFmpegCommandBuilder.__init__` (encoding_utils.py, lines 19-27). -/
def FFmpegCommandBuilder.init (config : AppConfig) : FFmpegCommandBuilder :=
  { cmd := [config.ffmpeg_path, "-y"], inputs := [], filters := [], maps := [],
    video_opts := [], audio_opts := [], global_opts := [], output := "" }

/-- Embeds `add_global_option` (encoding_utils.py, lines 29-33); the Python default
`value=""` is passed explicitly at call sites. -/
def FFmpegCommandBuilder.add_global_option (b : FFmpegCommandBuilder)
    (flag value : String) : FFmpegCommandBuilder :=
  { b with global_opts := b.global_opts ++ [flag] ++ (if value ≠ "" then [value] else []) }

/-- Embeds `add_input` (encoding_utils.py, lines 35-37). -/
def FFmpegCommandBuilder.add_input (b : FFmpegCommandBuilder)
    (input_path : String) : FFmpegCommandBuilder :=
  { b with inputs := b.inputs ++ ["-i", input_path] }

/-- Embeds `add_map` (encoding_utils.py, lines 39-41). -/
def FFmpegCommandBuilder.add_map (b : FFmpegCommandBuilder)
    (map_val : String) : FFmpegCommandBuilder :=
  { b with maps := b.maps ++ ["-map", map_val] }

/-- Embeds `add_filter` (encoding_utils.py, lines 43-45). -/
def FFmpegCommandBuilder.add_filter (b : FFmpegCommandBuilder)
    (filter_str : String) : FFmpegCommandBuilder :=
  { b with filters := b.filters ++ [filter_str] }

/-- Embeds `add_video_option` (encoding_utils.py, lines 47-51). -/
def FFmpegCommandBuilder.add_video_option (b : FFmpegCommandBuilder)
    (flag value : String) : FFmpegCommandBuilder :=
  { b with video_opts := b.video_opts ++ [flag] ++ (if value ≠ "" then [value] else []) }

/-- Embeds `set_output` (encoding_utils.py, lines 59-61). -/
def FFmpegCommandBuilder.set_output (b : FFmpegCommandBuilder)
    (output_path : String) : FFmpegCommandBuilder :=
  { b with output := output_path }

/-- Embeds `FFmpegCommandBuilder.build` (encoding_utils.py, lines 63-80): assemble the
final argv; raise `ValueError` ("Output path not set ...") when `output` is
unset (the empty string, its `__init__` value). -/
def FFmpegCommandBuilder.build (b : FFmpegCommandBuilder) :
    Except String (List String) :=
  let final1 := b.cmd ++ b.global_opts ++ b.inputs ++ b.maps
  let final2 := if b.filters = [] then final1
                else final1 ++ ["-vf", String.intercalate "," b.filters]
  let final3 := final2 ++ b.video_opts ++ b.audio_opts
  if b.output = "" then .error "Output path not set for FFmpegCommandBuilder"
  else .ok (final3 ++ [b.output])

/-- Embeds `IntelQSVStrategy.build_command` (encoding_utils.py, lines 94-179):
raise `ValueError` when `stream_info` is missing, otherwise assemble the QSV
builder exactly as the source does. -/
def IntelQSVStrategy.build_command (config : AppConfig) (media_item : MediaItem)
    (temp_output : String) (bf lad async_depth : Int) :
    Except String FFmpegCommandBuilder :=
  match media_item.stream_info with
  | none => .error "Stream info missing from MediaItem"
  | some stream_info =>
    let is_hw_supported :=
      (["hevc", "h264", "vp9"].contains stream_info.codec_name) &&
      (stream_info.profile ≠ "high 4:4:4 predictive") &&
      (stream_info.profile ≠ "high 10")
    let b := FFmpegCommandBuilder.init config
    let b := b.add_global_option "-hwaccel" "qsv"
    let b := b.add_global_option "-qsv_device" config.qsv_device
    let b := b.add_global_option "-hwaccel_output_format" "qsv"
    let b := if is_hw_supported then b else b.add_global_option "-threads" "6"
    let b := b.add_global_option "-thread_queue_size" "4096"
    let b := b.add_input media_item.source_path
    let b := b.add_map "0:v:0"
    let b := b.add_map "-1"
    let b := media_item.audio_tracks.foldl (fun b track => b.add_map ("0:" ++ toString track)) b
    let hw_format := "p010"
    let w_h := if stream_info.width ≠ 1920 ∨ stream_info.height ≠ 1080
               then ":w=1920:h=1080" else ""
    let denoise_level : Int := 15
    let filter_parts : List String :=
      (if denoise_level > 0 then ["denoise=" ++ toString denoise_level] else []) ++
      (if w_h ≠ "" then ["w=1920:h=1080"] else []) ++
      ["format=" ++ hw_format]
    let vpp_filter := "vpp_qsv=" ++ String.intercalate ":" filter_parts
    let b := b.add_filter vpp_filter
    let b := b.add_video_option "-c:v" "hevc_qsv"
    let b := b.add_video_option "-profile:v" "main10"
    let b := b.add_video_option "-level:v" "5.1"
    let b := b.add_video_option "-preset" "veryslow"
    let b := b.add_video_option "-global_quality" (toString config.global_quality_default)
    let b := b.add_video_option "-b:v" "0"
    let b := b.add_video_option "-look_ahead" "1"
    let b := b.add_video_option "-look_ahead_depth" (toString lad)
    let b := b.add_video_option "-async_depth" (toString async_depth)
    let b := b.add_video_option "-bf" (toString bf)
    let b := b.add_video_option "-b_strategy" "1"
    let b := b.add_video_option "-g" "600"
    let b := b.add_video_option "-mbbrc" "1"
    let b := b.add_video_option "-rc_mode" "icq"
    let b := b.add_video_option "-max_muxing_queue_size" "9999"
    let b := b.add_video_option "-avoid_negative_ts" "make_zero"
    let b := b.set_output temp_output
    .ok b

/-- The behaviour of one spawned encoder process, as decided by the
environment.  `resourceCause` records whether an abnormal termination was in
fact due to hardware resource exhaustion; the code never reads this field —
`execute_process` collapses every non-zero exit and every spawn error to
`None`. -/
inductive ExecResult where
  | exited (code : Int) (resourceCause : Bool)
  | spawnError
deriving DecidableEq, Repr

/-- Embeds `encoding_utils.execute_process` with `wait_for_completion=True`
(encoding_utils.py, lines 181-198): return the completed process on exit code
0, and `None` on any non-zero exit or any exception while spawning/waiting. -/
def execute_process : ExecResult → Option Unit
  | .exited code _ => if code = 0 then some () else none
  | .spawnError => none

/-- Embeds `models.EncodingTier` (models.py, lines 100-105). -/
structure EncodingTier where
  bf : Int
  lad : Int
  async_depth : Int
  desc : String
deriving DecidableEq, Repr

/-- The fixed default ladder (conversion_utils.py, lines 62-66). -/
def baseTiers : List EncodingTier :=
  [{ bf := 7, lad := 40, async_depth := 8, desc := "Max Quality (High VRAM)" },
   { bf := 4, lad := 20, async_depth := 4, desc := "Balanced (Medium VRAM)" },
   { bf := 0, lad := 10, async_depth := 2, desc := "Safe Mode (Low VRAM)" }]

/-- Tier selection from the heuristic profile (conversion_utils.py, lines
76-89).  When a profile was loaded (any stored tuple is truthy), the filter
loop's very first iteration evaluates `t['bf']` (line 82) — but `EncodingTier`
(models.py, lines 100-105) is a plain frozen dataclass with no `__getitem__`,
so this raises `TypeError` before any tier is selected; the
filtering/injection logic below it (lines 83-89) is unreachable.  The ladder
`tiers` is never empty, so the loop body always runs.  Python's message is
"'EncodingTier' object is not subscriptable"; the quotes around the class
name are omitted here.  Without a profile the base ladder is used
unchanged. -/
def selectTiers (best_profile : Option (Int × Int × Int)) :
    Except String (List EncodingTier) :=
  match best_profile with
  | none => .ok baseTiers
  | some _ => .error "EncodingTier object is not subscriptable"

/-- The Python exception classes the encode phase can surface
(exceptions.py; `ValueError` from the builder/strategy; `TypeError` from
subscripting the frozen `EncodingTier` dataclass). -/
inductive PipelineError where
  | valueError (msg : String)
  | videoEncodingError (msg : String)
  | typeError (msg : String)
deriving DecidableEq, Repr

/-- What the environment does during one tier attempt: the spawned process's
fate, and whether/with what size the output artifact exists afterwards. -/
structure AttemptWorld where
  exec : ExecResult
  outputExists : Bool
  outputSize : Nat
deriving DecidableEq, Repr

/-- Result of `_encode_video_with_heuristics`: the returned path or raised
exception, the database afterwards, the list of tiers for which a process was
actually spawned, the number of `save_successful_profile` calls, and whether
the temp artifact is on disk at the end. -/
structure EncodeResult where
  result : Except PipelineError String
  db : DatabaseManager
  executed : List EncodingTier
  upserts : Nat
  tempExists : Bool
deriving Repr

/-- The attempt loop of `_encode_video_with_heuristics` (conversion_utils.py,
lines 93-135).  Per tier: build the command (a `ValueError` here propagates
uncaught, before the try block); spawn; `execute_process = None` is classified
`VRAMExhaustionError` — delete partial output, cool down, continue with the
next tier; exit 0 with a missing or undersized (< 1000 bytes) artifact raises
`VideoEncodingError`, caught by the generic handler which deletes the partial
output and re-raises fatally.  When the artifact verifies as healthy, line
112 interpolates `attempt['desc']` into a log message — a subscript on the
frozen dataclass that raises `TypeError` inside the try block; the generic
handler (lines 128-132) then deletes the verified output and re-raises
`VideoEncodingError(f"Fatal encode error: {e}")`, so the save at lines 115-119
and the `return temp_output` at line 120 are unreachable.  An exhausted ladder
raises `VideoEncodingError` (line 135). -/
def encodeLoop (config : AppConfig) (media_item : MediaItem)
    (temp_output : String) (world : Nat → AttemptWorld) :
    List EncodingTier → Nat → DatabaseManager → EncodeResult
  | [], _, db =>
    { result := .error (.videoEncodingError "All encoding memory tiers failed."),
      db := db, executed := [], upserts := 0, tempExists := false }
  | attempt :: rest, i, db =>
    match IntelQSVStrategy.build_command config media_item temp_output
        attempt.bf attempt.lad attempt.async_depth with
    | .error e =>
      { result := .error (.valueError e), db := db, executed := [],
        upserts := 0, tempExists := false }
    | .ok builder =>
      match builder.build with
      | .error e =>
        { result := .error (.valueError e), db := db, executed := [],
          upserts := 0, tempExists := false }
      | .ok _cmd =>
        let w := world i
        match execute_process w.exec with
        | none =>
          let r := encodeLoop config media_item temp_output world rest (i + 1) db
          { r with executed := attempt :: r.executed }
        | some _ =>
          if w.outputExists = false ∨ w.outputSize < 1000 then
            { result := .error (.videoEncodingError
                "Fatal encode error: Output file missing or empty"),
              db := db, executed := [attempt], upserts := 0, tempExists := false }
          else
            { result := .error (.videoEncodingError
                "Fatal encode error: EncodingTier object is not subscriptable"),
              db := db, executed := [attempt], upserts := 0, tempExists := false }

/-- The temp artifact name (conversion_utils.py, line 91):
`source_path.with_name(clean_name + "_converted.mp4")`, modelled as the
resulting file name. -/
def temp_output_name (media_item : MediaItem) : String :=
  media_item.clean_name ++ "_converted.mp4"

/-- Embeds `ProcessingPipeline._encode_video_with_heuristics` (conversion_utils.py,
lines 55-135): heuristic lookup (skipped without stream info), tier selection
— which raises an uncaught `TypeError` whenever a profile exists (line 82,
see `selectTiers`), aborting the job with zero tier attempts — then the
attempt loop. -/
def encode_video_with_heuristics (db : DatabaseManager) (config : AppConfig)
    (media_item : MediaItem) (world : Nat → AttemptWorld) : EncodeResult :=
  let best_profile :=
    match media_item.stream_info with
    | some s => db.get_best_profile s.width s.height s.codec_name s.pix_fmt
    | none => none
  match selectTiers best_profile with
  | .error e =>
    { result := .error (.typeError e), db := db, executed := [], upserts := 0,
      tempExists := false }
  | .ok tiers =>
    encodeLoop config media_item (temp_output_name media_item) world tiers 0 db

/-- The on-disk files visible to the relocation phase. -/
structure FileSystem where
  files : List String
deriving DecidableEq, Repr

/-- Embeds `Path.exists()`. -/
def FileSystem.hasFile (fs : FileSystem) (p : String) : Bool :=
  decide (p ∈ fs.files)

/-- Embeds `Path.unlink()`. -/
def FileSystem.remove (fs : FileSystem) (p : String) : FileSystem :=
  { files := fs.files.filter (fun q => q ≠ p) }

/-- Embeds `shutil.move(src, dst)` on its success path: `src` disappears, `dst`
appears. -/
def FileSystem.move (fs : FileSystem) (src dst : String) : FileSystem :=
  { files := dst :: (fs.files.filter (fun q => q ≠ src)).filter (fun q => q ≠ dst) }

/-- Embeds `Path.name`: the final path component (the characters after the last
slash). -/
def baseName (p : String) : String :=
  ⟨(p.data.reverse.takeWhile (fun c => c ≠ '/')).reverse⟩

/-- Embeds `ProcessingPipeline._relocate` (conversion_utils.py, lines 137-159):
move the encoded video (and the subtitle, when present on disk) into
`target_root / clean_name`, then delete the original source video unless it is
already gone.  `target_root` stands for `media_item.target_directory()`. -/
def relocate (fs : FileSystem) (media_item : MediaItem) (target_root : String)
    (encoded_file : String) (subtitle_file : Option String) :
    FileSystem × String :=
  let final_dir := target_root ++ "/" ++ media_item.clean_name
  let final_video_path := final_dir ++ "/" ++ baseName encoded_file
  let fs1 := fs.move encoded_file final_video_path
  let fs2 :=
    match subtitle_file with
    | some sub =>
      if fs1.hasFile sub then fs1.move sub (final_dir ++ "/" ++ baseName sub)
      else fs1
    | none => fs1
  if fs2.hasFile media_item.source_path = false then (fs2, final_dir)
  else (fs2.remove media_item.source_path, final_dir)

/-- Embeds `ProcessingPipeline.run` (conversion_utils.py, lines 23-37): subtitle
extraction (an external collaborator, supplied as `subtitle_path`; its failure
is absorbed as `none`), encode, relocate. -/
def ProcessingPipeline.run (db : DatabaseManager) (config : AppConfig)
    (media_item : MediaItem) (target_root : String)
    (world : Nat → AttemptWorld) (fs : FileSystem)
    (subtitle_path : Option String) :
    Except PipelineError (DatabaseManager × FileSystem × String) :=
  let enc := encode_video_with_heuristics db config media_item world
  match enc.result with
  | .error e => .error e
  | .ok encoded_file =>
    let rel := relocate fs media_item target_root encoded_file subtitle_path
    .ok (enc.db, rel.1, rel.2)

/-- Embeds `models.MediaType` (models.py, lines 87-91). -/
inductive MediaType where
  | movie
  | tvseries
  | unknown
deriving DecidableEq, Repr

/-- Media-type identification (core.py, lines 49-56): prefix match of the
absolute job path against the configured roots. -/
def identify_media_type (path : String) (config : AppConfig) : MediaType :=
  if strStartsWith path config.base_movies_root then .movie
  else if strStartsWith path config.base_tvseries_root then .tvseries
  else .unknown

/-- Observable steps of one worker-loop iteration: database status writes and
media probes (`VideoStreamInfo.from_file`, run by `MediaItem.__init__`). -/
inductive WorkerEvent where
  | statusWrite (id : Nat) (st : JobStatus)
  | mediaProbe (path : String)
deriving DecidableEq, Repr

/-- Filesystem facts the worker-loop body consults, supplied by the
environment: whether the dequeued path is a directory, the episode files found
under a season folder, and the largest movie file found under a movie
folder. -/
structure WorkerEnv where
  is_dir : Bool
  episodes : List String
  largest_movie : Option String
deriving DecidableEq, Repr

/-- One worker-loop iteration (core.py, lines 34-97), modelled from the
dequeue through the media-probe point: the dequeue claim (which itself writes
PROCESSING), the seeding-path safeguard (REJECTED before anything else),
media-type identification, the directory-routing interceptor, and
`MediaFactory.create` — which probes the stream for movie/TV-series items and
returns `None` (job REJECTED) for UNKNOWN ones.  The pipeline run and final
status write that follow a successful probe are outside this model. -/
def worker_iteration (db : DatabaseManager) (config : AppConfig)
    (env : WorkerEnv) (now : Nat) : DatabaseManager × List WorkerEvent :=
  match db.dequeue_pending_job with
  | (none, db1) => (db1, [])
  | (some (job_id, job_path), db1) =>
    let ev0 := [WorkerEvent.statusWrite job_id .processing]
    if should_process_path job_path config = false then
      (db1.update_job_status job_id .rejected,
       ev0 ++ [.statusWrite job_id .rejected])
    else
      match env.is_dir, identify_media_type job_path config with
      | true, .tvseries =>
        let db2 := env.episodes.foldl (fun d ep => (d.add_job ep now).2) db1
        (db2.update_job_status job_id .completed,
         ev0 ++ [.statusWrite job_id .completed])
      | true, .movie =>
        match env.largest_movie with
        | some movie_file => (db1, ev0 ++ [.mediaProbe movie_file])
        | none =>
          (db1.update_job_status job_id .failed,
           ev0 ++ [.statusWrite job_id .failed])
      | true, .unknown =>
        (db1.update_job_status job_id .failed,
         ev0 ++ [.statusWrite job_id .failed])
      | false, .unknown =>
        (db1.update_job_status job_id .rejected,
         ev0 ++ [.statusWrite job_id .rejected])
      | false, _ => (db1, ev0 ++ [.mediaProbe job_path])

/-! ## Helper lemmas -/

/-- The heuristic key of a profile row. -/
def profileKey (p : Profile) : Int × Int × String × String :=
  (p.width, p.height, p.codec, p.pix_fmt)

lemma sigMatches_iff {p : Profile} {w h : Int} {c f : String} :
    sigMatches p w h c f = true ↔ profileKey p = (w, h, c, f) := by
  simp [sigMatches, profileKey, Prod.ext_iff, and_assoc]

lemma sigMatches_updateProfileRow (w h : Int) (c f : String) (bf lad ad : Int)
    (p : Profile) :
    sigMatches (updateProfileRow w h c f bf lad ad p) w h c f =
      sigMatches p w h c f := by
  unfold updateProfileRow
  by_cases hp : sigMatches p w h c f = true
  · rw [if_pos hp]; simp [sigMatches]
  · rw [if_neg hp]

lemma profileKey_updateProfileRow (w h : Int) (c f : String) (bf lad ad : Int)
    (p : Profile) :
    profileKey (updateProfileRow w h c f bf lad ad p) = profileKey p := by
  unfold updateProfileRow
  by_cases hp : sigMatches p w h c f = true <;> simp [hp, profileKey]

lemma sigMatches_newProfileRow (w h : Int) (c f : String) (bf lad ad : Int) :
    sigMatches (newProfileRow w h c f bf lad ad) w h c f = true := by
  simp [sigMatches, newProfileRow]

lemma find?_map_updateProfileRow (w h : Int) (c f : String) (bf lad ad : Int)
    (l : List Profile) :
    (l.map (updateProfileRow w h c f bf lad ad)).find?
        (fun p => sigMatches p w h c f) =
      (l.find? (fun p => sigMatches p w h c f)).map
        (updateProfileRow w h c f bf lad ad) := by
  induction l with
  | nil => rfl
  | cons p t ih =>
    by_cases hp : sigMatches p w h c f = true
    · simp [hp, sigMatches_updateProfileRow]
    · have hp' : sigMatches p w h c f = false := Bool.eq_false_iff.mpr hp
      simp [hp', sigMatches_updateProfileRow, ih]

lemma find?_eq_none_of_not_any {l : List Profile} {w h : Int} {c f : String}
    (hx : ¬ l.any (fun p => sigMatches p w h c f) = true) :
    l.find? (fun p => sigMatches p w h c f) = none := by
  rw [List.find?_eq_none]
  intro x hxm hc
  exact hx (List.any_eq_true.mpr ⟨x, hxm, hc⟩)

lemma get_best_profile_save (db : DatabaseManager) (w h : Int) (c f : String)
    (bf lad ad : Int) :
    (db.save_successful_profile w h c f bf lad ad).get_best_profile w h c f =
      some (bf, lad, ad) := by
  unfold DatabaseManager.save_successful_profile DatabaseManager.get_best_profile
  by_cases hx : db.profiles.any (fun p => sigMatches p w h c f) = true
  · simp only [hx, if_true, find?_map_updateProfileRow]
    obtain ⟨p0, hp0m, hp0⟩ := List.any_eq_true.mp hx
    cases hfind : db.profiles.find? (fun p => sigMatches p w h c f) with
    | none =>
      exact absurd hp0 (by simpa using List.find?_eq_none.mp hfind p0 hp0m)
    | some q =>
      have hq := List.find?_some hfind
      simp [hq, updateProfileRow]
  · simp only [hx, if_false, Bool.false_eq_true]
    rw [List.find?_append, find?_eq_none_of_not_any hx]
    simp only [List.find?_cons, sigMatches_newProfileRow, Option.or]
    simp [newProfileRow]

lemma successCountOf_save (db : DatabaseManager) (w h : Int) (c f : String)
    (bf lad ad : Int) :
    successCountOf (db.save_successful_profile w h c f bf lad ad) w h c f =
      successCountOf db w h c f + 1 := by
  unfold DatabaseManager.save_successful_profile successCountOf
  by_cases hx : db.profiles.any (fun p => sigMatches p w h c f) = true
  · simp only [hx, if_true, find?_map_updateProfileRow]
    obtain ⟨p0, hp0m, hp0⟩ := List.any_eq_true.mp hx
    cases hfind : db.profiles.find? (fun p => sigMatches p w h c f) with
    | none =>
      exact absurd hp0 (by simpa using List.find?_eq_none.mp hfind p0 hp0m)
    | some q =>
      have hq := List.find?_some hfind
      simp [hq, updateProfileRow]
  · simp only [hx, if_false, Bool.false_eq_true]
    rw [List.find?_append, find?_eq_none_of_not_any hx]
    simp only [List.find?_cons, sigMatches_newProfileRow, Option.or]
    simp [newProfileRow]

lemma keys_map_updateProfileRow (w h : Int) (c f : String) (bf lad ad : Int)
    (l : List Profile) :
    (l.map (updateProfileRow w h c f bf lad ad)).map profileKey =
      l.map profileKey := by
  induction l with
  | nil => rfl
  | cons p t ih => simp [profileKey_updateProfileRow, ih]

lemma save_preserves_nodup (db : DatabaseManager) (w h : Int) (c f : String)
    (bf lad ad : Int) (hnd : (db.profiles.map profileKey).Nodup) :
    ((db.save_successful_profile w h c f bf lad ad).profiles.map profileKey).Nodup := by
  unfold DatabaseManager.save_successful_profile
  by_cases hx : db.profiles.any (fun p => sigMatches p w h c f) = true
  · simp only [hx, if_true]
    rw [keys_map_updateProfileRow]
    exact hnd
  · simp only [hx, if_false, Bool.false_eq_true]
    rw [List.map_append, List.nodup_append]
    refine ⟨hnd, List.nodup_singleton _, ?_⟩
    intro k hk1 hk2
    obtain ⟨p, hpm, hpk⟩ := List.mem_map.mp hk1
    have hk : k = profileKey (newProfileRow w h c f bf lad ad) := by
      simpa using hk2
    have hpmatch : sigMatches p w h c f = true := by
      rw [sigMatches_iff, hpk, hk]
      simp [newProfileRow, profileKey]
    exact hx (List.any_eq_true.mpr ⟨p, hpm, hpmatch⟩)

lemma count_key_le_one {α β : Type} [DecidableEq β] (key : α → β) :
    ∀ (l : List α), (l.map key).Nodup → ∀ k : β,
      (l.filter (fun a => decide (key a = k))).length ≤ 1 := by
  intro l
  induction l with
  | nil => intro _ k; simp
  | cons a t ih =>
    intro hnd k
    rw [List.map_cons, List.nodup_cons] at hnd
    obtain ⟨hka, hnd'⟩ := hnd
    by_cases hk : key a = k
    · have ht : t.filter (fun x => decide (key x = k)) = [] := by
        rw [List.filter_eq_nil_iff]
        intro x hxm
        simp only [decide_eq_true_eq]
        intro hxk
        exact hka (by rw [← hk] at hxk; exact hxk ▸ List.mem_map_of_mem key hxm)
      simp [List.filter_cons, hk, ht]
    · simp only [List.filter_cons, decide_eq_true_eq, hk, if_false]
      exact ih hnd' k

/-! ## C6 -/

/-- C6: `save_profile` is an upsert keyed uniquely by the
(width, height, codec, pixel-format) signature: absent → a new row is
appended; present → every stored parameter value is overwritten and the
success counter incremented; afterwards the lookup returns exactly the values
just saved, and at most one profile per signature exists. -/
theorem save_profile_upsert_spec (db : DatabaseManager) (w h : Int)
    (c f : String) (bf lad ad : Int)
    (hnd : (db.profiles.map profileKey).Nodup) :
    (db.save_successful_profile w h c f bf lad ad).get_best_profile w h c f =
        some (bf, lad, ad) ∧
    successCountOf (db.save_successful_profile w h c f bf lad ad) w h c f =
        successCountOf db w h c f + 1 ∧
    (db.profiles.any (fun p => sigMatches p w h c f) = false →
      (db.save_successful_profile w h c f bf lad ad).profiles =
        db.profiles ++ [newProfileRow w h c f bf lad ad]) ∧
    (db.profiles.any (fun p => sigMatches p w h c f) = true →
      (db.save_successful_profile w h c f bf lad ad).profiles =
        db.profiles.map (updateProfileRow w h c f bf lad ad)) ∧
    ((db.save_successful_profile w h c f bf lad ad).profiles.map profileKey).Nodup ∧
    ∀ k, ((db.save_successful_profile w h c f bf lad ad).profiles.filter
        (fun p => decide (profileKey p = k))).length ≤ 1 := by
  refine ⟨get_best_profile_save db w h c f bf lad ad,
          successCountOf_save db w h c f bf lad ad, ?_, ?_,
          save_preserves_nodup db w h c f bf lad ad hnd,
          fun k => count_key_le_one profileKey _
            (save_preserves_nodup db w h c f bf lad ad hnd) k⟩
  · intro hx
    unfold DatabaseManager.save_successful_profile
    simp [hx]
  · intro hx
    unfold DatabaseManager.save_successful_profile
    simp [hx]

/-- Witness for C6 at a concrete store. -/
theorem save_profile_upsert_spec_witness :
    ((DatabaseManager.mk [] 1 []).profiles.map profileKey).Nodup ∧
    ((DatabaseManager.mk [] 1 []).save_successful_profile 1920 1080 "hevc" "p010"
        7 40 8).get_best_profile 1920 1080 "hevc" "p010" = some (7, 40, 8) :=
  ⟨by decide,
   (save_profile_upsert_spec (DatabaseManager.mk [] 1 []) 1920 1080 "hevc" "p010"
      7 40 8 (by decide)).1⟩
/-! ## C7 -/

lemma add_job_present {db : DatabaseManager} {path : String} {now : Nat}
    (hp : db.jobs.any (fun j => j.path = path) = true) :
    db.add_job path now = (false, db) := by
  unfold DatabaseManager.add_job
  rw [if_pos hp]

lemma add_job_absent {db : DatabaseManager} {path : String} {now : Nat}
    (hp : db.jobs.any (fun j => j.path = path) = false) :
    db.add_job path now =
      (true, { db with
                jobs := db.jobs ++ [{ id := db.next_id, path := path,
                                      status := .pending, created_at := now }],
                next_id := db.next_id + 1 }) := by
  unfold DatabaseManager.add_job
  rw [if_neg (by simp [hp])]

/-- C7: `enqueue(path)` returns `true` and appends exactly one new PENDING
row when the path is absent, and returns `false` leaving the store unchanged
when it is present; enqueueing the same path twice leaves exactly one row for
that path. -/
theorem add_job_idempotent_spec (db : DatabaseManager) (path : String)
    (n1 n2 : Nat) (hnd : (db.jobs.map Job.path).Nodup) :
    (db.jobs.any (fun j => j.path = path) = false →
      (db.add_job path n1).1 = true ∧
      (db.add_job path n1).2.jobs = db.jobs ++
        [{ id := db.next_id, path := path, status := .pending, created_at := n1 }]) ∧
    (db.jobs.any (fun j => j.path = path) = true →
      db.add_job path n1 = (false, db)) ∧
    ((db.add_job path n1).2.add_job path n2).1 = false ∧
    ((db.add_job path n1).2.add_job path n2).2 = (db.add_job path n1).2 ∧
    (((db.add_job path n1).2.add_job path n2).2.jobs.filter
        (fun j => decide (j.path = path))).length = 1 := by
  by_cases hp : db.jobs.any (fun j => j.path = path) = true
  · have h1 : db.add_job path n1 = (false, db) := add_job_present hp
    obtain ⟨x, hxm, hxp⟩ := List.any_eq_true.mp hp
    have hx1 : x ∈ db.jobs.filter (fun j => decide (j.path = path)) :=
      List.mem_filter.mpr ⟨hxm, hxp⟩
    have hlen1 : 1 ≤ (db.jobs.filter (fun j => decide (j.path = path))).length :=
      List.length_pos.mpr (List.ne_nil_of_mem hx1)
    have hle : (db.jobs.filter (fun j => decide (j.path = path))).length ≤ 1 :=
      count_key_le_one Job.path db.jobs hnd path
    have h2 : (db.add_job path n1).2.add_job path n2 = (false, db) := by
      rw [h1]
      exact add_job_present hp
    refine ⟨?_, fun _ => h1, ?_, ?_, ?_⟩
    · intro hc
      rw [hp] at hc
      cases hc
    · rw [h2]
    · rw [h2, h1]
    · rw [h2]
      show (db.jobs.filter (fun j => decide (j.path = path))).length = 1
      omega
  · have hp' : db.jobs.any (fun j => j.path = path) = false :=
      Bool.eq_false_iff.mpr hp
    have h1 := @add_job_absent db path n1 hp'
    have hany2 : ((db.add_job path n1).2.jobs.any (fun j => j.path = path)) = true := by
      rw [h1]
      simp
    have h2 : (db.add_job path n1).2.add_job path n2 = (false, (db.add_job path n1).2) :=
      add_job_present hany2
    have hfilter : db.jobs.filter (fun j => decide (j.path = path)) = [] := by
      rw [List.filter_eq_nil_iff]
      intro x hxm
      simp only [decide_eq_true_eq]
      intro hxp
      exact hp (List.any_eq_true.mpr ⟨x, hxm, by simp [hxp]⟩)
    refine ⟨fun _ => ?_, ?_, ?_, ?_, ?_⟩
    · rw [h1]
      exact ⟨rfl, rfl⟩
    · intro hc
      rw [hc] at hp'
      cases hp'
    · rw [h2]
    · rw [h2]
    · rw [h2, h1]
      simp [List.filter_append, hfilter, List.filter_cons]

/-- Witness for C7 at a concrete store. -/
theorem add_job_idempotent_spec_witness :
    ((DatabaseManager.mk [] 1 []).jobs.map Job.path).Nodup ∧
    ((((DatabaseManager.mk [] 1 []).add_job "/data/scratch/movies/a.mkv" 5).2.add_job
        "/data/scratch/movies/a.mkv" 6).2.jobs.filter
        (fun j => decide (j.path = "/data/scratch/movies/a.mkv"))).length = 1 :=
  ⟨by decide,
   (add_job_idempotent_spec (DatabaseManager.mk [] 1 [])
      "/data/scratch/movies/a.mkv" 5 6 (by decide)).2.2.2.2⟩
/-! ## C5 -/

lemma minPendingScan_none : ∀ (l : List Job) (best : Option Job),
    minPendingScan best l = none → best = none ∧ ∀ j ∈ l, j.status ≠ .pending := by
  intro l
  induction l with
  | nil =>
    intro best h
    simp only [minPendingScan] at h
    exact ⟨h, by simp⟩
  | cons j rest ih =>
    intro best h
    cases best with
    | none =>
      simp only [minPendingScan] at h
      by_cases hj : j.status = .pending
      · rw [if_pos hj] at h
        have := (ih (some j) h).1
        cases this
      · rw [if_neg hj] at h
        obtain ⟨hb, hrest⟩ := ih none h
        refine ⟨rfl, ?_⟩
        intro k hk
        rcases List.mem_cons.mp hk with hkj | hkr
        · rw [hkj]; exact hj
        · exact hrest k hkr
    | some b =>
      simp only [minPendingScan] at h
      by_cases hj : j.status = .pending
      · rw [if_pos hj] at h
        by_cases hlt : j.created_at < b.created_at
        · rw [if_pos hlt] at h
          have := (ih (some j) h).1
          cases this
        · rw [if_neg hlt] at h
          have := (ih (some b) h).1
          cases this
      · rw [if_neg hj] at h
        have := (ih (some b) h).1
        cases this

lemma minPendingScan_spec :
    ∀ (l : List Job) (best : Option Job),
      (∀ b, best = some b → b.status = .pending) →
      (∀ b, best = some b → ∀ j ∈ l, b.id < j.id) →
      l.Pairwise (fun a b => a.id < b.id) →
      ∀ r, minPendingScan best l = some r →
        (best = some r ∨ r ∈ l) ∧ r.status = .pending ∧
        (∀ b, best = some b → r.created_at < b.created_at ∨ r = b) ∧
        (∀ k ∈ l, k.status = .pending →
           r.created_at < k.created_at ∨
             (r.created_at = k.created_at ∧ r.id ≤ k.id)) := by
  intro l
  induction l with
  | nil =>
    intro best hbp _ _ r hr
    simp only [minPendingScan] at hr
    refine ⟨Or.inl hr, hbp r hr, ?_, by simp⟩
    intro b hb
    rw [hr] at hb
    injection hb with hb'
    exact Or.inr hb'
  | cons j rest ih =>
    intro best hbp hbid hpw r hr
    obtain ⟨hjid, hpw'⟩ := List.pairwise_cons.mp hpw
    cases best with
    | none =>
      simp only [minPendingScan] at hr
      by_cases hj : j.status = .pending
      · rw [if_pos hj] at hr
        obtain ⟨hmem, hrp, hrelj, hrest⟩ := ih (some j)
          (fun b hb => by injection hb with h; rw [← h]; exact hj)
          (fun b hb k hk => by injection hb with h; rw [← h]; exact hjid k hk)
          hpw' r hr
        have hrel := hrelj j rfl
        refine ⟨?_, hrp, fun b hb => Option.noConfusion hb, ?_⟩
        · rcases hmem with hm | hm
          · injection hm with h
            exact Or.inr (by rw [← h]; exact List.mem_cons_self j rest)
          · exact Or.inr (List.mem_cons_of_mem j hm)
        · intro k hk hkp
          rcases List.mem_cons.mp hk with hkj | hkr
          · subst hkj
            rcases hrel with hlt | heq
            · exact Or.inl hlt
            · rw [heq]
              exact Or.inr ⟨rfl, le_refl _⟩
          · exact hrest k hkr hkp
      · rw [if_neg hj] at hr
        obtain ⟨hmem, hrp, _, hrest⟩ := ih none
          (fun b hb => Option.noConfusion hb)
          (fun b hb => Option.noConfusion hb) hpw' r hr
        refine ⟨?_, hrp, fun b hb => Option.noConfusion hb, ?_⟩
        · rcases hmem with hm | hm
          · cases hm
          · exact Or.inr (List.mem_cons_of_mem j hm)
        · intro k hk hkp
          rcases List.mem_cons.mp hk with hkj | hkr
          · rw [hkj] at hkp
            exact absurd hkp hj
          · exact hrest k hkr hkp
    | some b =>
      have hbpend : b.status = .pending := hbp b rfl
      simp only [minPendingScan] at hr
      by_cases hj : j.status = .pending
      · rw [if_pos hj] at hr
        by_cases hlt : j.created_at < b.created_at
        · rw [if_pos hlt] at hr
          obtain ⟨hmem, hrp, hrelj, hrest⟩ := ih (some j)
            (fun b' hb => by injection hb with h; rw [← h]; exact hj)
            (fun b' hb k hk => by injection hb with h; rw [← h]; exact hjid k hk)
            hpw' r hr
          have hrel := hrelj j rfl
          have hrca : r.created_at ≤ j.created_at := by
            rcases hrel with h1 | h1
            · exact le_of_lt h1
            · rw [h1]
          refine ⟨?_, hrp, ?_, ?_⟩
          · rcases hmem with hm | hm
            · injection hm with h
              exact Or.inr (by rw [← h]; exact List.mem_cons_self j rest)
            · exact Or.inr (List.mem_cons_of_mem j hm)
          · intro b' hb
            injection hb with h
            rw [← h]
            exact Or.inl (lt_of_le_of_lt hrca hlt)
          · intro k hk hkp
            rcases List.mem_cons.mp hk with hkj | hkr
            · subst hkj
              rcases hrel with h1 | h1
              · exact Or.inl h1
              · rw [h1]
                exact Or.inr ⟨rfl, le_refl _⟩
            · exact hrest k hkr hkp
        · rw [if_neg hlt] at hr
          obtain ⟨hmem, hrp, hrelb, hrest⟩ := ih (some b)
            (fun b' hb => by injection hb with h; rw [← h]; exact hbpend)
            (fun b' hb k hk => by
               injection hb with h
               rw [← h]
               exact hbid b rfl k (List.mem_cons_of_mem j hk))
            hpw' r hr
          have hrel := hrelb b rfl
          have hble : b.created_at ≤ j.created_at := le_of_not_lt hlt
          refine ⟨?_, hrp, ?_, ?_⟩
          · rcases hmem with hm | hm
            · exact Or.inl hm
            · exact Or.inr (List.mem_cons_of_mem j hm)
          · intro b' hb
            injection hb with h
            rw [← h]
            exact hrel
          · intro k hk hkp
            rcases List.mem_cons.mp hk with hkj | hkr
            · subst hkj
              rcases hrel with h1 | h1
              · exact Or.inl (lt_of_lt_of_le h1 hble)
              · rw [h1]
                rcases lt_or_eq_of_le hble with h2 | h2
                · exact Or.inl h2
                · exact Or.inr ⟨h2, le_of_lt (hbid b rfl k (List.mem_cons_self k rest))⟩
            · exact hrest k hkr hkp
      · rw [if_neg hj] at hr
        obtain ⟨hmem, hrp, hrelb, hrest⟩ := ih (some b) hbp
          (fun b' hb k hk => hbid b' hb k (List.mem_cons_of_mem j hk))
          hpw' r hr
        refine ⟨?_, hrp, hrelb, ?_⟩
        · rcases hmem with hm | hm
          · exact Or.inl hm
          · exact Or.inr (List.mem_cons_of_mem j hm)
        · intro k hk hkp
          rcases List.mem_cons.mp hk with hkj | hkr
          · rw [hkj] at hkp
            exact absurd hkp hj
          · exact hrest k hkr hkp

lemma dequeue_eq_none {db : DatabaseManager}
    (h : minPendingScan none db.jobs = none) :
    db.dequeue_pending_job = (none, db) := by
  unfold DatabaseManager.dequeue_pending_job
  rw [h]

lemma dequeue_eq_some {db : DatabaseManager} {j : Job}
    (h : minPendingScan none db.jobs = some j) :
    db.dequeue_pending_job =
      (some (j.id, j.path),
       { db with jobs := db.jobs.map fun k =>
           if k.id = j.id then { k with status := .processing } else k }) := by
  unfold DatabaseManager.dequeue_pending_job
  rw [h]

/-- C5: `dequeue_pending` returns `none` and changes nothing when no
PENDING job exists; otherwise it returns the `(id, path)` of a PENDING job
that is oldest by `created_at` — ties broken by lowest id (given ids strictly
increasing in table order, as AUTOINCREMENT guarantees) — and, in the same
step, exactly that job's row is rewritten to PROCESSING. -/
theorem dequeue_pending_spec (db : DatabaseManager)
    (hsort : db.jobs.Pairwise (fun a b => a.id < b.id)) :
    (db.dequeue_pending_job.1 = none →
      (∀ j ∈ db.jobs, j.status ≠ .pending) ∧ db.dequeue_pending_job.2 = db) ∧
    (∀ i p, db.dequeue_pending_job.1 = some (i, p) →
      ∃ j ∈ db.jobs, j.id = i ∧ j.path = p ∧ j.status = .pending ∧
        (∀ k ∈ db.jobs, k.status = .pending →
           j.created_at < k.created_at ∨
             (j.created_at = k.created_at ∧ j.id ≤ k.id)) ∧
        db.dequeue_pending_job.2.jobs = db.jobs.map
          (fun q => if q.id = j.id then { q with status := .processing } else q)) := by
  cases hscan : minPendingScan none db.jobs with
  | none =>
    rw [dequeue_eq_none hscan]
    constructor
    · intro _
      exact ⟨(minPendingScan_none db.jobs none hscan).2, rfl⟩
    · intro i p h
      cases h
  | some j =>
    obtain ⟨hmem, hjp, _, hmin⟩ := minPendingScan_spec db.jobs none
      (fun b hb => Option.noConfusion hb)
      (fun b hb => Option.noConfusion hb) hsort j hscan
    have hjmem : j ∈ db.jobs := by
      rcases hmem with hm | hm
      · cases hm
      · exact hm
    rw [dequeue_eq_some hscan]
    constructor
    · intro h
      cases h
    · intro i p h
      simp only [Prod.mk.injEq, Option.some.injEq] at h
      refine ⟨j, hjmem, h.1, h.2, hjp, hmin, rfl⟩

/-- Witness for C5: a two-job queue with equal timestamps; the lower id wins
and is marked PROCESSING. -/
theorem dequeue_pending_spec_witness :
    ((DatabaseManager.mk
        [Job.mk 1 "/data/scratch/movies/a.mkv" .pending 7,
         Job.mk 2 "/data/scratch/movies/b.mkv" .pending 7] 3 []).jobs.Pairwise
       (fun a b => a.id < b.id)) ∧
    ∃ j ∈ (DatabaseManager.mk
        [Job.mk 1 "/data/scratch/movies/a.mkv" .pending 7,
         Job.mk 2 "/data/scratch/movies/b.mkv" .pending 7] 3 []).jobs,
      j.id = 1 ∧ j.path = "/data/scratch/movies/a.mkv" ∧ j.status = .pending ∧
      (∀ k ∈ (DatabaseManager.mk
          [Job.mk 1 "/data/scratch/movies/a.mkv" .pending 7,
           Job.mk 2 "/data/scratch/movies/b.mkv" .pending 7] 3 []).jobs,
         k.status = .pending →
           j.created_at < k.created_at ∨
             (j.created_at = k.created_at ∧ j.id ≤ k.id)) ∧
      (DatabaseManager.mk
          [Job.mk 1 "/data/scratch/movies/a.mkv" .pending 7,
           Job.mk 2 "/data/scratch/movies/b.mkv" .pending 7] 3
          []).dequeue_pending_job.2.jobs =
        (DatabaseManager.mk
          [Job.mk 1 "/data/scratch/movies/a.mkv" .pending 7,
           Job.mk 2 "/data/scratch/movies/b.mkv" .pending 7] 3 []).jobs.map
          (fun q => if q.id = j.id then { q with status := .processing } else q) :=
  ⟨by decide,
   (dequeue_pending_spec (DatabaseManager.mk
      [Job.mk 1 "/data/scratch/movies/a.mkv" .pending 7,
       Job.mk 2 "/data/scratch/movies/b.mkv" .pending 7] 3 [])
      (by decide)).2 1 "/data/scratch/movies/a.mkv" (by decide)⟩

/-! ## C1 -/

/-- C1 (spec-modelled `reset_orphaned_jobs`): the startup recovery pass
turns every PROCESSING job into a PENDING one (all other jobs unchanged),
leaves no PROCESSING job behind, is idempotent (so each orphan is reset
exactly once), and makes an orphaned job dequeue-eligible again. -/
theorem reset_orphaned_spec (db : DatabaseManager) :
    (∀ j ∈ db.jobs, j.status = .processing →
       { j with status := JobStatus.pending } ∈ db.reset_orphaned_jobs.jobs) ∧
    (∀ j ∈ db.jobs, j.status ≠ .processing → j ∈ db.reset_orphaned_jobs.jobs) ∧
    (∀ j ∈ db.reset_orphaned_jobs.jobs, j.status ≠ .processing) ∧
    db.reset_orphaned_jobs.reset_orphaned_jobs = db.reset_orphaned_jobs ∧
    ((∃ j ∈ db.jobs, j.status = .processing) →
       db.reset_orphaned_jobs.dequeue_pending_job.1 ≠ none) := by
  have hjobs : db.reset_orphaned_jobs.jobs = db.jobs.map
      (fun j => if j.status = .processing then { j with status := .pending } else j) :=
    rfl
  have hmem1 : ∀ j ∈ db.jobs, j.status = .processing →
      { j with status := JobStatus.pending } ∈ db.reset_orphaned_jobs.jobs := by
    intro j hj hp
    rw [hjobs]
    have := List.mem_map_of_mem
      (fun j => if j.status = .processing then { j with status := .pending } else j) hj
    simpa [hp] using this
  have hmem2 : ∀ j ∈ db.jobs, j.status ≠ .processing →
      j ∈ db.reset_orphaned_jobs.jobs := by
    intro j hj hp
    rw [hjobs]
    have := List.mem_map_of_mem
      (fun j => if j.status = .processing then { j with status := .pending } else j) hj
    simpa [hp] using this
  have hnop : ∀ j ∈ db.reset_orphaned_jobs.jobs, j.status ≠ .processing := by
    intro j hj
    rw [hjobs] at hj
    obtain ⟨k, _, hk⟩ := List.mem_map.mp hj
    by_cases hkp : k.status = .processing
    · rw [if_pos hkp] at hk
      rw [← hk]
      simp
    · rw [if_neg hkp] at hk
      rw [← hk]
      exact hkp
  refine ⟨hmem1, hmem2, hnop, ?_, ?_⟩
  · have hpt : ∀ j : Job,
        (fun j => if j.status = .processing then { j with status := .pending } else j)
          ((fun j => if j.status = .processing then { j with status := .pending } else j) j) =
        (fun j => if j.status = .processing then { j with status := .pending } else j) j := by
      intro j
      by_cases hp : j.status = .processing
      · simp [hp]
      · simp [hp]
    show ({ db.reset_orphaned_jobs with jobs := db.reset_orphaned_jobs.jobs.map _ }
        : DatabaseManager) = db.reset_orphaned_jobs
    rw [hjobs, List.map_map]
    have : (db.jobs.map (Function.comp
        (fun j => if j.status = .processing then { j with status := .pending } else j)
        (fun j => if j.status = .processing then { j with status := .pending } else j))) =
        db.jobs.map
          (fun j => if j.status = .processing then { j with status := .pending } else j) :=
      List.map_congr_left (fun j _ => hpt j)
    rw [this]
    rfl
  · intro ⟨j, hj, hp⟩ hnone
    cases hscan : minPendingScan none db.reset_orphaned_jobs.jobs with
    | some q =>
      rw [dequeue_eq_some hscan] at hnone
      cases hnone
    | none =>
      have hnopend := (minPendingScan_none _ _ hscan).2
      exact hnopend _ (hmem1 j hj hp) rfl

/-- Witness for C1: a store holding one orphaned PROCESSING job; after
recovery it is PENDING and dequeue picks it up. -/
theorem reset_orphaned_spec_witness :
    (Job.mk 1 "/data/scratch/movies/a.mkv" JobStatus.pending 3 ∈
      (DatabaseManager.mk [Job.mk 1 "/data/scratch/movies/a.mkv" .processing 3]
        2 []).reset_orphaned_jobs.jobs) ∧
    (DatabaseManager.mk [Job.mk 1 "/data/scratch/movies/a.mkv" .processing 3]
        2 []).reset_orphaned_jobs.dequeue_pending_job.1 ≠ none :=
  ⟨(reset_orphaned_spec (DatabaseManager.mk
      [Job.mk 1 "/data/scratch/movies/a.mkv" .processing 3] 2 [])).1
      (Job.mk 1 "/data/scratch/movies/a.mkv" .processing 3) (by decide) rfl,
   (reset_orphaned_spec (DatabaseManager.mk
      [Job.mk 1 "/data/scratch/movies/a.mkv" .processing 3] 2 [])).2.2.2.2
      ⟨Job.mk 1 "/data/scratch/movies/a.mkv" .processing 3, by decide, rfl⟩⟩

/-! ## Encode-loop unfolding lemmas -/

lemma temp_output_name_ne_empty (media_item : MediaItem) :
    temp_output_name media_item ≠ "" := by
  intro h
  have hlen := congrArg String.length h
  rw [temp_output_name] at hlen
  rw [String.length_append] at hlen
  have h14 : ("_converted.mp4" : String).length = 14 := rfl
  rw [h14] at hlen
  simp at hlen

lemma build_command_none {config : AppConfig} {media_item : MediaItem}
    (hn : media_item.stream_info = none) (temp : String) (bf lad ad : Int) :
    IntelQSVStrategy.build_command config media_item temp bf lad ad =
      .error "Stream info missing from MediaItem" := by
  unfold IntelQSVStrategy.build_command
  rw [hn]

lemma build_command_ok {config : AppConfig} {media_item : MediaItem}
    {s : VideoStreamInfo} (hs : media_item.stream_info = some s)
    (temp : String) (bf lad ad : Int) :
    ∃ b, IntelQSVStrategy.build_command config media_item temp bf lad ad = .ok b ∧
      b.output = temp := by
  unfold IntelQSVStrategy.build_command
  rw [hs]
  exact ⟨_, rfl, rfl⟩

lemma build_ok_of_output_ne {b : FFmpegCommandBuilder} (h : b.output ≠ "") :
    ∃ cmd, b.build = .ok cmd := by
  unfold FFmpegCommandBuilder.build
  rw [if_neg h]
  exact ⟨_, rfl⟩

lemma build_err_of_output_empty {b : FFmpegCommandBuilder} (h : b.output = "") :
    b.build = .error "Output path not set for FFmpegCommandBuilder" := by
  unfold FFmpegCommandBuilder.build
  rw [if_pos h]

lemma encodeLoop_nil (config : AppConfig) (media_item : MediaItem)
    (temp : String) (world : Nat → AttemptWorld) (i : Nat) (db : DatabaseManager) :
    encodeLoop config media_item temp world [] i db =
      { result := .error (.videoEncodingError "All encoding memory tiers failed."),
        db := db, executed := [], upserts := 0, tempExists := false } := rfl

lemma encodeLoop_cons_builderr {config : AppConfig} {media_item : MediaItem}
    {temp : String} {world : Nat → AttemptWorld} {attempt : EncodingTier}
    {rest : List EncodingTier} {i : Nat} {db : DatabaseManager} {e : String}
    (hb : IntelQSVStrategy.build_command config media_item temp
        attempt.bf attempt.lad attempt.async_depth = .error e) :
    encodeLoop config media_item temp world (attempt :: rest) i db =
      { result := .error (.valueError e), db := db, executed := [],
        upserts := 0, tempExists := false } := by
  unfold encodeLoop
  rw [hb]

lemma encodeLoop_cons_vram {config : AppConfig} {media_item : MediaItem}
    {temp : String} {world : Nat → AttemptWorld} {attempt : EncodingTier}
    {rest : List EncodingTier} {i : Nat} {db : DatabaseManager}
    {b : FFmpegCommandBuilder} {cmd : List String}
    (hb : IntelQSVStrategy.build_command config media_item temp
        attempt.bf attempt.lad attempt.async_depth = .ok b)
    (hc : b.build = .ok cmd)
    (hexec : execute_process (world i).exec = none) :
    encodeLoop config media_item temp world (attempt :: rest) i db =
      { encodeLoop config media_item temp world rest (i + 1) db with
        executed := attempt ::
          (encodeLoop config media_item temp world rest (i + 1) db).executed } := by
  conv_lhs => unfold encodeLoop
  simp only [hb, hc, hexec]

lemma encodeLoop_cons_fatal {config : AppConfig} {media_item : MediaItem}
    {temp : String} {world : Nat → AttemptWorld} {attempt : EncodingTier}
    {rest : List EncodingTier} {i : Nat} {db : DatabaseManager}
    {b : FFmpegCommandBuilder} {cmd : List String}
    (hb : IntelQSVStrategy.build_command config media_item temp
        attempt.bf attempt.lad attempt.async_depth = .ok b)
    (hc : b.build = .ok cmd)
    (hexec : execute_process (world i).exec = some ())
    (hbad : (world i).outputExists = false ∨ (world i).outputSize < 1000) :
    encodeLoop config media_item temp world (attempt :: rest) i db =
      { result := .error (.videoEncodingError
          "Fatal encode error: Output file missing or empty"),
        db := db, executed := [attempt], upserts := 0, tempExists := false } := by
  unfold encodeLoop
  simp only [hb, hc, hexec]
  rw [if_pos hbad]

lemma encodeLoop_cons_success {config : AppConfig} {media_item : MediaItem}
    {temp : String} {world : Nat → AttemptWorld} {attempt : EncodingTier}
    {rest : List EncodingTier} {i : Nat} {db : DatabaseManager}
    {b : FFmpegCommandBuilder} {cmd : List String}
    (hb : IntelQSVStrategy.build_command config media_item temp
        attempt.bf attempt.lad attempt.async_depth = .ok b)
    (hc : b.build = .ok cmd)
    (hexec : execute_process (world i).exec = some ())
    (hgood : ¬ ((world i).outputExists = false ∨ (world i).outputSize < 1000)) :
    encodeLoop config media_item temp world (attempt :: rest) i db =
      { result := .error (.videoEncodingError
          "Fatal encode error: EncodingTier object is not subscriptable"),
        db := db, executed := [attempt], upserts := 0, tempExists := false } := by
  unfold encodeLoop
  simp only [hb, hc, hexec]
  rw [if_neg hgood]

lemma encodeLoop_cons_builderr2 {config : AppConfig} {media_item : MediaItem}
    {temp : String} {world : Nat → AttemptWorld} {attempt : EncodingTier}
    {rest : List EncodingTier} {i : Nat} {db : DatabaseManager}
    {b : FFmpegCommandBuilder} {e : String}
    (hb : IntelQSVStrategy.build_command config media_item temp
        attempt.bf attempt.lad attempt.async_depth = .ok b)
    (hc : b.build = .error e) :
    encodeLoop config media_item temp world (attempt :: rest) i db =
      { result := .error (.valueError e), db := db, executed := [],
        upserts := 0, tempExists := false } := by
  unfold encodeLoop
  simp only [hb, hc]

lemma encodeLoop_executed_subset (config : AppConfig) (media_item : MediaItem)
    (temp : String) (world : Nat → AttemptWorld) :
    ∀ (tiers : List EncodingTier) (i : Nat) (db : DatabaseManager),
      ∀ t ∈ (encodeLoop config media_item temp world tiers i db).executed,
        t ∈ tiers := by
  intro tiers
  induction tiers with
  | nil =>
    intro i db t ht
    rw [encodeLoop_nil] at ht
    cases ht
  | cons attempt rest ih =>
    intro i db t ht
    cases hb : IntelQSVStrategy.build_command config media_item temp
        attempt.bf attempt.lad attempt.async_depth with
    | error e =>
      rw [encodeLoop_cons_builderr hb] at ht
      cases ht
    | ok b =>
      cases hc : b.build with
      | error e =>
        rw [encodeLoop_cons_builderr2 hb hc] at ht
        cases ht
      | ok cmd =>
        cases hexec : execute_process (world i).exec with
        | none =>
          rw [encodeLoop_cons_vram hb hc hexec] at ht
          rcases List.mem_cons.mp ht with h1 | h1
          · rw [h1]
            exact List.mem_cons_self attempt rest
          · exact List.mem_cons_of_mem attempt (ih (i + 1) db t h1)
        | some u =>
          cases u
          by_cases hbad : (world i).outputExists = false ∨ (world i).outputSize < 1000
          · rw [encodeLoop_cons_fatal hb hc hexec hbad] at ht
            rcases List.mem_cons.mp ht with h1 | h1
            · rw [h1]
              exact List.mem_cons_self attempt rest
            · cases h1
          · rw [encodeLoop_cons_success hb hc hexec hbad] at ht
            rcases List.mem_cons.mp ht with h1 | h1
            · rw [h1]
              exact List.mem_cons_self attempt rest
            · cases h1

lemma encodeLoop_executed_head {config : AppConfig} {media_item : MediaItem}
    {temp : String} {world : Nat → AttemptWorld} {attempt : EncodingTier}
    {rest : List EncodingTier} {i : Nat} {db : DatabaseManager}
    {b : FFmpegCommandBuilder} {cmd : List String}
    (hb : IntelQSVStrategy.build_command config media_item temp
        attempt.bf attempt.lad attempt.async_depth = .ok b)
    (hc : b.build = .ok cmd) :
    (encodeLoop config media_item temp world (attempt :: rest) i db).executed.head? =
      some attempt := by
  cases hexec : execute_process (world i).exec with
  | none =>
    rw [encodeLoop_cons_vram hb hc hexec]
    rfl
  | some u =>
    cases u
    by_cases hbad : (world i).outputExists = false ∨ (world i).outputSize < 1000
    · rw [encodeLoop_cons_fatal hb hc hexec hbad]
      rfl
    · rw [encodeLoop_cons_success hb hc hexec hbad]
      rfl

lemma encodeLoop_no_ok (config : AppConfig) (media_item : MediaItem)
    (temp : String) (world : Nat → AttemptWorld) :
    ∀ (tiers : List EncodingTier) (i : Nat) (db : DatabaseManager),
      (encodeLoop config media_item temp world tiers i db).upserts = 0 ∧
      ∃ e, (encodeLoop config media_item temp world tiers i db).result = .error e := by
  intro tiers
  induction tiers with
  | nil =>
    intro i db
    rw [encodeLoop_nil]
    exact ⟨rfl, _, rfl⟩
  | cons attempt rest ih =>
    intro i db
    cases hb : IntelQSVStrategy.build_command config media_item temp
        attempt.bf attempt.lad attempt.async_depth with
    | error e =>
      rw [encodeLoop_cons_builderr hb]
      exact ⟨rfl, _, rfl⟩
    | ok b =>
      cases hc : b.build with
      | error e =>
        rw [encodeLoop_cons_builderr2 hb hc]
        exact ⟨rfl, _, rfl⟩
      | ok cmd =>
        cases hexec : execute_process (world i).exec with
        | none =>
          rw [encodeLoop_cons_vram hb hc hexec]
          obtain ⟨h1, e, h2⟩ := ih (i + 1) db
          exact ⟨h1, e, h2⟩
        | some u =>
          cases u
          by_cases hbad : (world i).outputExists = false ∨ (world i).outputSize < 1000
          · rw [encodeLoop_cons_fatal hb hc hexec hbad]
            exact ⟨rfl, _, rfl⟩
          · rw [encodeLoop_cons_success hb hc hexec hbad]
            exact ⟨rfl, _, rfl⟩

lemma encodeLoop_stepdown_class (config : AppConfig) (media_item : MediaItem)
    (temp : String) (world : Nat → AttemptWorld) :
    ∀ (tiers : List EncodingTier) (i : Nat) (db : DatabaseManager) (j : Nat),
      j + 1 < (encodeLoop config media_item temp world tiers i db).executed.length →
      execute_process (world (i + j)).exec = none := by
  intro tiers
  induction tiers with
  | nil =>
    intro i db j hj
    rw [encodeLoop_nil] at hj
    simp at hj
  | cons attempt rest ih =>
    intro i db j hj
    cases hb : IntelQSVStrategy.build_command config media_item temp
        attempt.bf attempt.lad attempt.async_depth with
    | error e =>
      rw [encodeLoop_cons_builderr hb] at hj
      simp at hj
    | ok b =>
      cases hc : b.build with
      | error e =>
        rw [encodeLoop_cons_builderr2 hb hc] at hj
        simp at hj
      | ok cmd =>
        cases hexec : execute_process (world i).exec with
        | none =>
          rw [encodeLoop_cons_vram hb hc hexec] at hj
          cases j with
          | zero => exact hexec
          | succ j' =>
            have hj' : j' + 1 <
                (encodeLoop config media_item temp world rest (i + 1) db).executed.length := by
              simp only [List.length_cons] at hj
              omega
            have := ih (i + 1) db j' hj'
            rw [show i + (j' + 1) = i + 1 + j' by omega]
            exact this
        | some u =>
          cases u
          by_cases hbad : (world i).outputExists = false ∨ (world i).outputSize < 1000
          · rw [encodeLoop_cons_fatal hb hc hexec hbad] at hj
            simp at hj
          · rw [encodeLoop_cons_success hb hc hexec hbad] at hj
            simp at hj

lemma encodeLoop_fatal (config : AppConfig) (media_item : MediaItem)
    (temp : String) (world : Nat → AttemptWorld) {s : VideoStreamInfo}
    (hs : media_item.stream_info = some s) (htemp : temp ≠ "") :
    ∀ (tiers : List EncodingTier) (i : Nat) (db : DatabaseManager) (k : Nat),
      k < tiers.length →
      (∀ j, j < k → execute_process (world (i + j)).exec = none) →
      execute_process (world (i + k)).exec = some () →
      (encodeLoop config media_item temp world tiers i db).result =
          .error (.videoEncodingError
            (if (world (i + k)).outputExists = false ∨ (world (i + k)).outputSize < 1000
             then "Fatal encode error: Output file missing or empty"
             else "Fatal encode error: EncodingTier object is not subscriptable")) ∧
      (encodeLoop config media_item temp world tiers i db).executed.length = k + 1 ∧
      (encodeLoop config media_item temp world tiers i db).tempExists = false ∧
      (encodeLoop config media_item temp world tiers i db).upserts = 0 := by
  intro tiers
  induction tiers with
  | nil =>
    intro i db k hk
    simp at hk
  | cons attempt rest ih =>
    intro i db k hk hall hexec
    obtain ⟨b, hb, hout⟩ :=
      build_command_ok hs temp attempt.bf attempt.lad attempt.async_depth
    obtain ⟨cmd, hc⟩ := build_ok_of_output_ne (by rw [hout]; exact htemp)
    cases k with
    | zero =>
      simp only [Nat.add_zero] at hexec ⊢
      by_cases hbad : (world i).outputExists = false ∨ (world i).outputSize < 1000
      · rw [encodeLoop_cons_fatal hb hc hexec hbad, if_pos hbad]
        exact ⟨rfl, rfl, rfl, rfl⟩
      · rw [encodeLoop_cons_success hb hc hexec hbad, if_neg hbad]
        exact ⟨rfl, rfl, rfl, rfl⟩
    | succ k' =>
      have h0 : execute_process (world i).exec = none := by
        have := hall 0 (Nat.succ_pos k')
        simpa using this
      rw [encodeLoop_cons_vram hb hc h0]
      rw [show i + (k' + 1) = i + 1 + k' by omega]
      have hrec := ih (i + 1) db k'
        (by simp only [List.length_cons] at hk; omega)
        (fun j hj => by
          have := hall (j + 1) (by omega)
          rw [show i + (j + 1) = i + 1 + j by omega] at this
          exact this)
        (by rw [show i + 1 + k' = i + (k' + 1) by omega]; exact hexec)
      refine ⟨hrec.1, ?_, hrec.2.2.1, hrec.2.2.2⟩
      have hlen := hrec.2.1
      simp only [List.length_cons]
      omega

/-! ## Tier-selection lemmas -/

lemma selectTiers_none : selectTiers none = .ok baseTiers := rfl

lemma selectTiers_some (bp : Int × Int × Int) :
    selectTiers (some bp) = .error "EncodingTier object is not subscriptable" := rfl

lemma encode_video_eq_loop {db : DatabaseManager} {config : AppConfig}
    {media_item : MediaItem} {world : Nat → AttemptWorld} {s : VideoStreamInfo}
    (hs : media_item.stream_info = some s)
    (hnp : db.get_best_profile s.width s.height s.codec_name s.pix_fmt = none) :
    encode_video_with_heuristics db config media_item world =
      encodeLoop config media_item (temp_output_name media_item) world
        baseTiers 0 db := by
  simp only [encode_video_with_heuristics, hs, hnp, selectTiers_none]

lemma encode_video_profile_crash {db : DatabaseManager} {config : AppConfig}
    {media_item : MediaItem} {world : Nat → AttemptWorld} {s : VideoStreamInfo}
    {bp : Int × Int × Int} (hs : media_item.stream_info = some s)
    (hp : db.get_best_profile s.width s.height s.codec_name s.pix_fmt = some bp) :
    encode_video_with_heuristics db config media_item world =
      { result := .error (.typeError "EncodingTier object is not subscriptable"),
        db := db, executed := [], upserts := 0, tempExists := false } := by
  simp only [encode_video_with_heuristics, hs, hp, selectTiers_some]

lemma encode_video_stream_none {db : DatabaseManager} {config : AppConfig}
    {media_item : MediaItem} {world : Nat → AttemptWorld}
    (hn : media_item.stream_info = none) :
    encode_video_with_heuristics db config media_item world =
      { result := .error (.valueError "Stream info missing from MediaItem"),
        db := db, executed := [], upserts := 0, tempExists := false } := by
  simp only [encode_video_with_heuristics, hn, selectTiers_none]
  rw [show baseTiers = EncodingTier.mk 7 40 8 "Max Quality (High VRAM)" :: [EncodingTier.mk 4 20 4 "Balanced (Medium VRAM)", EncodingTier.mk 0 10 2 "Safe Mode (Low VRAM)"] from rfl]
  exact encodeLoop_cons_builderr (build_command_none hn _ _ _ _)

/-! ## Concrete fixtures -/

def cfgDemo : AppConfig :=
  { ffmpeg_path := "/usr/bin/ffmpeg", qsv_device := "/dev/dri/renderD128",
    global_quality_default := 23, base_movies_root := "/data/scratch/movies",
    base_tvseries_root := "/data/scratch/tv-series" }

def infoDemo : VideoStreamInfo :=
  { width := 1920, height := 1080, codec_name := "hevc", profile := "main 10",
    pix_fmt := "yuv420p10le" }

def itemDemo : MediaItem :=
  { source_path := "/data/scratch/movies/Alpha/Alpha.mkv",
    stream_info := some infoDemo, clean_name := "Alpha", audio_tracks := [1] }

def itemNoSig : MediaItem :=
  { source_path := "/data/scratch/movies/Beta/Beta.mkv",
    stream_info := none, clean_name := "Beta", audio_tracks := [] }

/-- Every attempt succeeds: clean exit, healthy artifact. -/
def worldAllOk : Nat → AttemptWorld :=
  fun _ => { exec := .exited 0 true, outputExists := true, outputSize := 4000 }

/-- First attempt exits non-zero for a reason that is NOT resource exhaustion
(`resourceCause = false`); the second attempt exits zero with a healthy
artifact. -/
def worldFatalExit : Nat → AttemptWorld := fun i =>
  if i = 0 then { exec := .exited 1 false, outputExists := false, outputSize := 0 }
  else { exec := .exited 0 true, outputExists := true, outputSize := 4000 }

/-- Every attempt exits zero but writes only a 12-byte (truncated) artifact. -/
def worldTrunc : Nat → AttemptWorld :=
  fun _ => { exec := .exited 0 true, outputExists := true, outputSize := 12 }

/-- A saved heuristic profile for the demo signature; its mere presence makes
the tier-filter loop crash (conversion_utils.py line 82). -/
def profileHot : Profile :=
  { width := 1920, height := 1080, codec := "hevc", pix_fmt := "yuv420p10le",
    best_bf := 9, best_lad := 5, best_async_depth := 4, success_count := 3 }

def dbHot : DatabaseManager := { jobs := [], next_id := 1, profiles := [profileHot] }

/-! ## C2 -/

/-- C2 (code bug): the claim states the spec's clear intent, but the code's
success path is unreachable.  After a zero-exit attempt whose artifact
verifies as healthy, conversion_utils.py line 112 interpolates
`attempt['desc']` — a subscript on the frozen `EncodingTier` dataclass — and
raises `TypeError` inside the try block; the generic handler deletes the
verified output and re-raises `VideoEncodingError`, so no upsert is performed
and no output path is returned.  The intent is unambiguous: the very same tier
is attribute-accessed correctly two lines up (`attempt.desc`, line 94) and in
the save call itself (lines 117-118).  The theorem evaluates the embedded code
at the failing input (first tier exits 0 with a 4000-byte artifact) and also
shows the bug is universal: no input ever produces an upsert or a returned
path. -/
theorem success_upsert_code_bug :
    (worldAllOk 0).exec = .exited 0 true ∧
    (worldAllOk 0).outputExists = true ∧
    (worldAllOk 0).outputSize = 4000 ∧
    itemDemo.stream_info = some infoDemo ∧
    (encode_video_with_heuristics (DatabaseManager.mk [] 1 []) cfgDemo itemDemo
        worldAllOk).result = .error (.videoEncodingError
          "Fatal encode error: EncodingTier object is not subscriptable") ∧
    (encode_video_with_heuristics (DatabaseManager.mk [] 1 []) cfgDemo itemDemo
        worldAllOk).upserts = 0 ∧
    (encode_video_with_heuristics (DatabaseManager.mk [] 1 []) cfgDemo itemDemo
        worldAllOk).db = DatabaseManager.mk [] 1 [] ∧
    ∀ (db : DatabaseManager) (config : AppConfig) (media_item : MediaItem)
      (world : Nat → AttemptWorld),
      (encode_video_with_heuristics db config media_item world).upserts = 0 ∧
      ∃ e, (encode_video_with_heuristics db config media_item world).result =
        .error e := by
  refine ⟨rfl, rfl, rfl, rfl, rfl, rfl, rfl, ?_⟩
  intro db config media_item world
  cases hsi : media_item.stream_info with
  | none =>
    rw [encode_video_stream_none hsi]
    exact ⟨rfl, _, rfl⟩
  | some s =>
    cases hp : db.get_best_profile s.width s.height s.codec_name s.pix_fmt with
    | none =>
      rw [encode_video_eq_loop hsi hp]
      exact encodeLoop_no_ok config media_item (temp_output_name media_item)
        world baseTiers 0 db
    | some bp =>
      rw [encode_video_profile_crash hsi hp]
      exact ⟨rfl, _, rfl⟩

/-! ## C3 -/

/-- C3 (code bug): whenever a heuristic profile exists for the signature, the
filter loop's first iteration evaluates `t['bf']` (conversion_utils.py line
82) — a subscript on the frozen `EncodingTier` dataclass — and raises
`TypeError` outside the try block, so the job aborts with ZERO tier attempts:
the filtering, the injection and the at-least-one-attempt behaviour the claim
(and spec 4.4 step 2) describe never execute.  The intent is unambiguous:
the same tier objects are attribute-accessed correctly at lines 94 and 98.
The theorem evaluates the embedded code at the failing input (the demo
signature with a saved profile bf=9, lad=5). -/
theorem heuristic_filter_code_bug :
    dbHot.get_best_profile 1920 1080 "hevc" "yuv420p10le" = some (9, 5, 4) ∧
    itemDemo.stream_info = some infoDemo ∧
    (encode_video_with_heuristics dbHot cfgDemo itemDemo worldAllOk).result =
      .error (.typeError "EncodingTier object is not subscriptable") ∧
    (encode_video_with_heuristics dbHot cfgDemo itemDemo worldAllOk).executed = [] ∧
    (encode_video_with_heuristics dbHot cfgDemo itemDemo worldAllOk).upserts = 0 :=
  ⟨rfl, rfl, rfl, rfl, rfl⟩

/-! ## C4 -/

/-- Counterexample to C4 as stated: the first tier's process exits non-zero
for a cause that is NOT resource exhaustion (`resourceCause = false`), yet the
job does not abort there — `execute_process` collapses every non-zero exit to
`None`, the loop classifies it as `VRAMExhaustionError`, steps down and spawns
a second tier (which then dies of the line-112 dataclass-subscript `TypeError`
after its healthy encode, rather than returning).  Two tiers executed refutes
"aborts immediately, with no further (lower) tier attempted". -/
theorem fatal_classification_counterexample :
    (worldFatalExit 0).exec = .exited 1 false ∧
    (encode_video_with_heuristics (DatabaseManager.mk [] 1 []) cfgDemo itemDemo
        worldFatalExit).executed.length = 2 ∧
    (encode_video_with_heuristics (DatabaseManager.mk [] 1 []) cfgDemo itemDemo
        worldFatalExit).result = .error (.videoEncodingError
          "Fatal encode error: EncodingTier object is not subscriptable") :=
  ⟨rfl, rfl, rfl⟩

/-- C4 (amended): every non-zero exit (whatever its cause) and every spawn
failure is classified as resource exhaustion and triggers step-down — every
non-final attempted tier ended in such a failure, and such a failure never
aborts the job by itself.  A fatal abort (output deleted, job aborts, no
further tier attempted, no upsert) occurs at the first zero-exit attempt:
with a missing or undersized artifact it raises the output-verification
error, and even with a healthy artifact it aborts — the `TypeError` from
subscripting the tier dataclass at line 112, re-raised as the fatal encoding
error.  Stated for a signature with no stored profile, since a stored profile
aborts the run before any attempt (see C3). -/
theorem failure_classification_amended (db : DatabaseManager)
    (config : AppConfig) (media_item : MediaItem) (world : Nat → AttemptWorld)
    (s : VideoStreamInfo) (hs : media_item.stream_info = some s)
    (hnp : db.get_best_profile s.width s.height s.codec_name s.pix_fmt = none) :
    (∀ (code : Int) (rc : Bool), code ≠ 0 →
       execute_process (.exited code rc) = none) ∧
    (∀ i, i + 1 <
        (encode_video_with_heuristics db config media_item world).executed.length →
       execute_process (world i).exec = none) ∧
    (∀ k, k < baseTiers.length →
       (∀ j, j < k → execute_process (world j).exec = none) →
       execute_process (world k).exec = some () →
       (encode_video_with_heuristics db config media_item world).result =
           .error (.videoEncodingError
             (if (world k).outputExists = false ∨ (world k).outputSize < 1000
              then "Fatal encode error: Output file missing or empty"
              else "Fatal encode error: EncodingTier object is not subscriptable")) ∧
       (encode_video_with_heuristics db config media_item world).executed.length =
           k + 1 ∧
       (encode_video_with_heuristics db config media_item world).tempExists =
           false ∧
       (encode_video_with_heuristics db config media_item world).upserts = 0) := by
  refine ⟨?_, ?_, ?_⟩
  · intro code rc hc
    simp [execute_process, hc]
  · intro i hi
    rw [encode_video_eq_loop hs hnp] at hi
    have hcl := encodeLoop_stepdown_class config media_item
      (temp_output_name media_item) world baseTiers 0 db i hi
    rw [Nat.zero_add] at hcl
    exact hcl
  · intro k hk hall hexec
    rw [encode_video_eq_loop hs hnp]
    have h := encodeLoop_fatal config media_item (temp_output_name media_item)
      world hs (temp_output_name_ne_empty media_item) baseTiers 0 db k hk
      (fun j hj => by rw [Nat.zero_add]; exact hall j hj)
      (by rw [Nat.zero_add]; exact hexec)
    rw [Nat.zero_add] at h
    exact h

/-- Witness for C4 (amended): a zero exit with a truncated 12-byte artifact on
the very first tier aborts the job fatally after exactly one attempt. -/
theorem failure_classification_amended_witness :
    (encode_video_with_heuristics (DatabaseManager.mk [] 1 []) cfgDemo itemDemo
        worldTrunc).result =
      .error (.videoEncodingError "Fatal encode error: Output file missing or empty") ∧
    (encode_video_with_heuristics (DatabaseManager.mk [] 1 []) cfgDemo itemDemo
        worldTrunc).executed.length = 1 := by
  have h := (failure_classification_amended (DatabaseManager.mk [] 1 []) cfgDemo
    itemDemo worldTrunc infoDemo rfl rfl).2.2 0 (by decide)
    (fun j hj => absurd hj (Nat.not_lt_zero j)) rfl
  have hcond : (worldTrunc 0).outputExists = false ∨ (worldTrunc 0).outputSize < 1000 := by
    decide
  refine ⟨?_, h.2.1⟩
  rw [h.1, if_pos hcond]

/-! ## C9 -/

/-- C9: command building fails fast — `build` raises `ValueError` when the
output path is unset, `build_command` raises `ValueError` when stream
characteristics are unresolved — and in the encode loop that failure
propagates before the per-tier try block: the run ends with the `ValueError`
itself (not a `VRAMExhaustionError`/`VideoEncodingError` classification), with
no tier attempt executed and the heuristic store untouched. -/
theorem builder_fail_fast :
    (∀ b : FFmpegCommandBuilder, b.output = "" →
       b.build = .error "Output path not set for FFmpegCommandBuilder") ∧
    (∀ (config : AppConfig) (media_item : MediaItem) (temp : String)
       (bf lad ad : Int), media_item.stream_info = none →
       IntelQSVStrategy.build_command config media_item temp bf lad ad =
         .error "Stream info missing from MediaItem") ∧
    (∀ (db : DatabaseManager) (config : AppConfig) (media_item : MediaItem)
       (world : Nat → AttemptWorld), media_item.stream_info = none →
       (encode_video_with_heuristics db config media_item world).result =
           .error (.valueError "Stream info missing from MediaItem") ∧
       (encode_video_with_heuristics db config media_item world).executed = [] ∧
       (encode_video_with_heuristics db config media_item world).upserts = 0 ∧
       (encode_video_with_heuristics db config media_item world).db = db) := by
  refine ⟨fun b hb => build_err_of_output_empty hb,
          fun config item temp bf lad ad hn => build_command_none hn temp bf lad ad,
          ?_⟩
  intro db config item world hn
  rw [encode_video_stream_none hn]
  exact ⟨rfl, rfl, rfl, rfl⟩

/-- Witness for C9: the freshly initialized builder has no output path and
fails; a media item with no stream info aborts the pipeline with `ValueError`
before any tier attempt. -/
theorem builder_fail_fast_witness :
    (FFmpegCommandBuilder.init cfgDemo).output = "" ∧
    (FFmpegCommandBuilder.init cfgDemo).build =
      .error "Output path not set for FFmpegCommandBuilder" ∧
    itemNoSig.stream_info = none ∧
    (encode_video_with_heuristics (DatabaseManager.mk [] 1 []) cfgDemo itemNoSig
        worldAllOk).executed = [] :=
  ⟨rfl, builder_fail_fast.1 (FFmpegCommandBuilder.init cfgDemo) rfl, rfl,
   (builder_fail_fast.2.2 (DatabaseManager.mk [] 1 []) cfgDemo itemNoSig
      worldAllOk rfl).2.1⟩

/-! ## C8 -/

def dbSeed : DatabaseManager :=
  { jobs := [Job.mk 1 "/share/seeding/x.mkv" .pending 0], next_id := 2,
    profiles := [] }

def envFile : WorkerEnv := { is_dir := false, episodes := [], largest_movie := none }

/-- Counterexample to C8 as stated: a PENDING job under `/share/seeding` IS
transitioned into PROCESSING — the dequeue claim itself writes PROCESSING
(db_utils.py lines 102-105) before the safeguard in core.py line 43 runs; only
then is it marked REJECTED.  So "no job with such a path ever transitions into
the PROCESSING status" fails, even though the rejection does happen before any
media probing. -/
theorem seeding_processing_counterexample :
    should_process_path "/share/seeding/x.mkv" cfgDemo = false ∧
    dbSeed.dequeue_pending_job.1 = some (1, "/share/seeding/x.mkv") ∧
    dbSeed.dequeue_pending_job.2.jobs =
      [Job.mk 1 "/share/seeding/x.mkv" .processing 0] ∧
    (worker_iteration dbSeed cfgDemo envFile 0).2 =
      [.statusWrite 1 .processing, .statusWrite 1 .rejected] ∧
    (worker_iteration dbSeed cfgDemo envFile 0).1.jobs =
      [Job.mk 1 "/share/seeding/x.mkv" .rejected 0] :=
  ⟨rfl, rfl, rfl, rfl, rfl⟩

/-- C8 (amended): a dequeued job whose path fails the seeding-path
safeguard is marked REJECTED before any media probing occurs (the iteration's
event trace contains no probe event); the job does, however, pass through
PROCESSING transiently — the atomic dequeue claim writes PROCESSING, and the
very next status write is REJECTED. -/
theorem seeding_rejected_amended (db : DatabaseManager) (config : AppConfig)
    (env : WorkerEnv) (now : Nat) (id : Nat) (p : String)
    (hdq : db.dequeue_pending_job.1 = some (id, p))
    (hrej : should_process_path p config = false) :
    (worker_iteration db config env now).2 =
      [.statusWrite id .processing, .statusWrite id .rejected] ∧
    (∀ q, WorkerEvent.mediaProbe q ∉ (worker_iteration db config env now).2) ∧
    (worker_iteration db config env now).1 =
      db.dequeue_pending_job.2.update_job_status id .rejected := by
  unfold worker_iteration
  cases hpair : db.dequeue_pending_job with
  | mk o db1 =>
    rw [hpair] at hdq
    simp only at hdq
    subst hdq
    simp only [hrej]
    refine ⟨rfl, ?_, rfl⟩
    intro q hq
    simp at hq

/-- Witness for C8 (amended) at the concrete seeding-path store. -/
theorem seeding_rejected_amended_witness :
    dbSeed.dequeue_pending_job.1 = some (1, "/share/seeding/x.mkv") ∧
    should_process_path "/share/seeding/x.mkv" cfgDemo = false ∧
    ∀ q, WorkerEvent.mediaProbe q ∉ (worker_iteration dbSeed cfgDemo envFile 0).2 :=
  ⟨rfl, rfl,
   (seeding_rejected_amended dbSeed cfgDemo envFile 0 1 "/share/seeding/x.mkv"
      rfl rfl).2.1⟩

/-! ## C10 -/

lemma hasFile_remove_self (fs : FileSystem) (p : String) :
    (fs.remove p).hasFile p = false := by
  simp [FileSystem.remove, FileSystem.hasFile]

lemma relocate_source_absent (fs : FileSystem) (media_item : MediaItem)
    (target_root : String) (encoded_file : String)
    (subtitle_file : Option String) :
    (relocate fs media_item target_root encoded_file subtitle_file).1.hasFile
      media_item.source_path = false := by
  unfold relocate
  by_cases h :
      (match subtitle_file with
        | some sub =>
          if (fs.move encoded_file (target_root ++ "/" ++ media_item.clean_name ++
              "/" ++ baseName encoded_file)).hasFile sub then
            (fs.move encoded_file (target_root ++ "/" ++ media_item.clean_name ++
              "/" ++ baseName encoded_file)).move sub
              (target_root ++ "/" ++ media_item.clean_name ++ "/" ++ baseName sub)
          else
            fs.move encoded_file (target_root ++ "/" ++ media_item.clean_name ++
              "/" ++ baseName encoded_file)
        | none =>
          fs.move encoded_file (target_root ++ "/" ++ media_item.clean_name ++
            "/" ++ baseName encoded_file)).hasFile media_item.source_path = false
  · rw [if_pos h]
    exact h
  · rw [if_neg h]
    exact hasFile_remove_self _ _

/-- C10: the original source media file is deleted from disk by the
relocation phase: whatever the filesystem held beforehand, once `_relocate`
completes the source path is absent — the phase ends by unlinking
`source_path` unless it is already gone (conversion_utils.py, lines 154-158).
A fully successful pipeline run ends with `_relocate`, so on any successful
run the source is removed — which the spec never states.  (The encode-phase
dataclass-subscript bug, see C2, makes a fully successful run unreachable in
the current code, so the property is settled at the relocation phase itself
rather than behind a vacuous success hypothesis.) -/
theorem relocate_deletes_source (fs : FileSystem) (media_item : MediaItem)
    (target_root : String) (encoded_file : String)
    (subtitle_file : Option String) :
    (relocate fs media_item target_root encoded_file subtitle_file).1.hasFile
      media_item.source_path = false :=
  relocate_source_absent fs media_item target_root encoded_file subtitle_file
